import Mathlib

/-!
Shallow embedding of `docx/parts/footer.py` (`FooterPart`): the identifier
allocator `next_id`, the relationship resolver behind the styles / numbering /
settings accessors, and the style-lookup facade.  Definitions follow the
source; collaborators that live outside the shown file (the OPC package
primitives `part_related_by` / `relate_to`, the `lazyproperty` decorator and
the `Styles` query surface) are modelled from the specification, as noted on
each definition.
-/

/-- An XML element: a list of attributes (name, value pairs) and a list of
child elements.  This models the subtree rooted at the part's `_element`. -/
inductive XTree where
  | node (attrs : List (String × String)) (children : List XTree)
deriving Repr

mutual

/-- The values selected by the XPath expression `//@id`: every value of an
attribute named `id`, anywhere in the subtree, regardless of element kind,
in document order. -/
def idVals : XTree → List String
  | .node attrs children =>
    (attrs.filter (fun a => a.1 == "id")).map Prod.snd ++ idValsList children

/-- Mapping of `idVals` over a list of sibling elements, in order. -/
def idValsList : List XTree → List String
  | [] => []
  | t :: ts => idVals t ++ idValsList ts

end

/-- Python `str.isdigit` on the ASCII strings we model: non-empty and every
character a decimal digit. -/
def isDigitStr (s : String) : Bool :=
  !s.isEmpty && s.data.all Char.isDigit

/-- Python `int` applied to a digit string: decimal value, leading zeros
allowed. -/
def strToNat (s : String) : Nat :=
  s.data.foldl (fun n c => n * 10 + (c.toNat - 48)) 0

/-- The local `used_ids` list of `FooterPart.next_id`: the `//@id` values
that pass `isdigit`, converted with `int`. -/
def usedIds (t : XTree) : List Nat :=
  ((idVals t).filter isDigitStr).map strToNat

/-- Translation of `FooterPart.next_id`: `1` when `used_ids` is empty, otherwise
`max(used_ids) + 1`. -/
def next_id (t : XTree) : Nat :=
  let used_ids := usedIds t
  if used_ids.isEmpty then 1 else used_ids.foldl Nat.max 0 + 1

/-! ### Relationship resolver state model

The OPC collaborators used by `FooterPart` — `Part.part_related_by`,
`Part.relate_to` and the `lazyproperty` decorator — live outside the shown
source file, so their behaviour is modelled from the specification
(§6: `relateTo(part, type)`, `partRelatedBy(type) -> Part | NotFoundError`;
§9: per-instance memoized property). -/

/-- The `RELATIONSHIP_TYPE` members used by `FooterPart` (a closed enumeration). -/
inductive RT where
  | styles
  | numbering
  | settings
  | coreProperties
deriving DecidableEq, Repr

/-- Errors of the embedded code: the internal `KeyError` raised by the
package lookup primitive, and the style-lookup domain errors. -/
inductive DocxError where
  | keyError
  | wrongStyleType (which : String)
  | styleNotFound (which : String)
deriving DecidableEq, Repr

/-- The in-memory state of one `FooterPart`: its outbound typed relationships
(type, target-part token), the `lazyproperty` cache slot of `numbering_part`,
a supply of fresh part tokens (for the `new`/`default` factories), and the
part's XML subtree. -/
structure PState where
  rels : List (RT × Nat)
  numberingCache : Option Nat
  nextFresh : Nat
  tree : XTree

/-- Modelled from the spec: `partRelatedBy(type) -> Part | NotFoundError`
(§6), the package lookup primitive `Part.part_related_by` (not under `src/`):
return the target of an outbound relationship of the given type, raising
`KeyError` when no such relationship exists. -/
def part_related_by (s : PState) (t : RT) : Except DocxError Nat :=
  match s.rels.find? (fun e => e.1 == t) with
  | some e => .ok e.2
  | none => .error .keyError

/-- Modelled from the spec: `relateTo(part, type)` (§6), the package
persistence primitive `Part.relate_to` (not under `src/`): add one outbound
relationship edge of the given type to the given part. -/
def relate_to (s : PState) (p : Nat) (t : RT) : PState :=
  { s with rels := s.rels ++ [(t, p)] }

/-- Translation of `FooterPart._styles_part` (a plain `@property`, no memoization): try
`part_related_by(RT.STYLES)`; on `KeyError`, create a default styles part,
relate to it and return it.  The result carries the returned part token, the
state after the access, and the number of `part_related_by` invocations the
access performed. -/
def stylesPartAcc (s : PState) : Except DocxError (Nat × PState × Nat) :=
  match part_related_by s .styles with
  | .ok p => .ok (p, s, 1)
  | .error .keyError =>
    let p := s.nextFresh
    let s1 : PState := { s with nextFresh := s.nextFresh + 1 }
    .ok (p, relate_to s1 p .styles, 1)
  | .error e => .error e

/-- Translation of `FooterPart._settings_part` (a plain `@property`, no memoization): try
`part_related_by(RT.SETTINGS)`; on `KeyError`, create a default settings
part, relate to it and return it.  Same instrumentation as `stylesPartAcc`. -/
def settingsPartAcc (s : PState) : Except DocxError (Nat × PState × Nat) :=
  match part_related_by s .settings with
  | .ok p => .ok (p, s, 1)
  | .error .keyError =>
    let p := s.nextFresh
    let s1 : PState := { s with nextFresh := s.nextFresh + 1 }
    .ok (p, relate_to s1 p .settings, 1)
  | .error e => .error e

/-- Translation of `FooterPart.numbering_part` (a `@lazyproperty`): on a cache hit return
the memoized part with no lookup; otherwise try
`part_related_by(RT.NUMBERING)`, on `KeyError` create an empty numbering
part, relate to it and return it; either way fill the cache.  Same
instrumentation as `stylesPartAcc`. -/
def numberingPartAcc (s : PState) : Except DocxError (Nat × PState × Nat) :=
  match s.numberingCache with
  | some p => .ok (p, s, 0)
  | none =>
    match part_related_by s .numbering with
    | .ok p => .ok (p, { s with numberingCache := some p }, 1)
    | .error .keyError =>
      let p := s.nextFresh
      let s1 : PState := { s with nextFresh := s.nextFresh + 1 }
      .ok (p, { relate_to s1 p .numbering with numberingCache := some p }, 1)
    | .error e => .error e

/-- Translation of `FooterPart.next_id` as a facade access (a `@property` whose body
only runs the read-only XPath query and computes): the result paired with
the unchanged state. -/
def nextIdAcc (s : PState) : Nat × PState :=
  (next_id s.tree, s)

/-- The number of outbound relationships of a given type held by the part. -/
def countRel (s : PState) (t : RT) : Nat :=
  (s.rels.filter (fun e => e.1 == t)).length

/-- At most one outbound relationship of each singleton relationship type. -/
def SingletonInv (s : PState) : Prop :=
  countRel s .styles ≤ 1 ∧ countRel s .numbering ≤ 1 ∧ countRel s .settings ≤ 1

instance (s : PState) : Decidable (SingletonInv s) := by
  unfold SingletonInv
  infer_instance

/-- A freshly loaded footer part: no relationships, empty cache, empty body. -/
def demoTree : XTree := XTree.node [] []

/-- Demo state: fresh part. -/
def freshState : PState := ⟨[], none, 0, demoTree⟩

/-- Demo state: `freshState` after one `_styles_part` access. -/
def afterStyles : PState := ⟨[(RT.styles, 0)], none, 1, demoTree⟩

/-- Demo state: `freshState` after one `_settings_part` access. -/
def afterSettings : PState := ⟨[(RT.settings, 0)], none, 1, demoTree⟩

/-- Demo state: `freshState` after one `numbering_part` access. -/
def afterNumbering : PState := ⟨[(RT.numbering, 0)], some 0, 1, demoTree⟩

/-! ### Style lookup facade

`FooterPart.get_style` and `FooterPart.get_style_id` delegate to the
`Styles` object of the styles part; the `Styles` query surface lives outside
the shown source file, so it is modelled from the specification (§4.3 style
lookup policies). -/

/-- The `WD_STYLE_TYPE` style categories. -/
inductive StyleType where
  | paragraph
  | character
  | table
  | numbering
deriving DecidableEq, Repr

/-- A defined style: canonical id, human-readable name, category. -/
structure Style where
  styleId : String
  name : String
  type : StyleType
deriving DecidableEq, Repr

/-- The styles defined in a document plus the designated default style of
each category. -/
structure StylesDoc where
  styles : List Style
  dflt : StyleType → Style

namespace Styles

/-- Modelled from the spec: `Styles.get_by_id` (the `Styles` query surface is
not under `src/`): return the style matching `style_id` and `style_type` if
present; if `style_id` is absent or matches no defined style of that type,
return that type's designated default style. -/
def get_by_id (d : StylesDoc) (style_id : Option String) (style_type : StyleType) : Style :=
  match style_id with
  | none => d.dflt style_type
  | some i =>
    match d.styles.find? (fun st => decide (st.styleId = i) && decide (st.type = style_type)) with
    | some st => st
    | none => d.dflt style_type

/-- Modelled from the spec: `Styles.get_style_id` (not under `src/`): accept
a style id or name; return the canonical id, or an absent value when the
input is absent or the resolved style is the default for `style_type`; raise
`WrongStyleType` when the named style has a different category, and
`StyleNotFound` when no style matches at all. -/
def get_style_id (d : StylesDoc) (style_or_name : Option String) (style_type : StyleType) :
    Except DocxError (Option String) :=
  match style_or_name with
  | none => .ok none
  | some key =>
    match d.styles.find? (fun st => decide (st.styleId = key) || decide (st.name = key)) with
    | none => .error (.styleNotFound key)
    | some st =>
      if st.type = style_type then
        if st = d.dflt style_type then .ok none else .ok (some st.styleId)
      else .error (.wrongStyleType key)

end Styles

namespace FooterPart

/-- Translation of `FooterPart.get_style`: delegates to `Styles.get_by_id`. -/
def get_style (d : StylesDoc) (style_id : Option String) (style_type : StyleType) : Style :=
  Styles.get_by_id d style_id style_type

/-- Translation of `FooterPart.get_style_id`: delegates to `Styles.get_style_id`. -/
def get_style_id (d : StylesDoc) (style_or_name : Option String) (style_type : StyleType) :
    Except DocxError (Option String) :=
  Styles.get_style_id d style_or_name style_type

end FooterPart

/-- Demo styles: "Heading 1" (paragraph), "Normal" (the paragraph default),
and a character default. -/
def demoNormal : Style := ⟨"Normal", "Normal", .paragraph⟩

/-- Demo style "Heading 1", a paragraph-type style. -/
def demoHeading : Style := ⟨"Heading1", "Heading 1", .paragraph⟩

/-- Demo document styles collection. -/
def demoDoc : StylesDoc :=
  ⟨[demoHeading, demoNormal],
   fun ty =>
     match ty with
     | .paragraph => demoNormal
     | ty => ⟨"Default", "Default", ty⟩⟩

/-! ### Helper lemmas about `List.foldl Nat.max` (used by the allocator). -/

theorem le_foldl_max (l : List Nat) (a : Nat) :
    a ≤ l.foldl Nat.max a ∧ ∀ v ∈ l, v ≤ l.foldl Nat.max a := by
  induction l generalizing a with
  | nil => simp
  | cons x xs ih =>
    refine ⟨?_, ?_⟩
    · exact le_trans (Nat.le_max_left a x) (ih (Nat.max a x)).1
    · intro v hv
      rcases List.mem_cons.mp hv with h | h
      · subst h
        exact le_trans (Nat.le_max_right a v) (ih (Nat.max a v)).1
      · exact (ih (Nat.max a x)).2 v h

theorem foldl_max_mem (l : List Nat) (a : Nat) :
    l.foldl Nat.max a = a ∨ l.foldl Nat.max a ∈ l := by
  induction l generalizing a with
  | nil => simp
  | cons x xs ih =>
    simp only [List.foldl_cons]
    rcases ih (Nat.max a x) with h | h
    · rw [h]
      rcases Nat.le_total a x with hm | hm
      · right
        have hx : Nat.max a x = x := Nat.max_eq_right hm
        rw [hx]
        exact List.mem_cons_self x xs
      · left
        exact Nat.max_eq_left hm
    · right
      exact List.mem_cons.mpr (Or.inr h)

theorem foldl_max_zero_mem (l : List Nat) (hne : l ≠ []) :
    l.foldl Nat.max 0 ∈ l := by
  rcases foldl_max_mem l 0 with h | h
  · cases l with
    | nil => exact absurd rfl hne
    | cons x xs =>
      have hx : x ≤ 0 := h ▸ (le_foldl_max (x :: xs) 0).2 x (List.mem_cons_self x xs)
      have : x = 0 := Nat.le_zero.mp hx
      rw [h, ← this]
      exact List.mem_cons_self x xs
  · exact h

theorem usedIds_ne_nil_of_mem {t : XTree} {v : Nat} (hv : v ∈ usedIds t) :
    usedIds t ≠ [] := by
  intro h
  rw [h] at hv
  exact List.not_mem_nil v hv

theorem next_id_of_ne_nil {t : XTree} (h : usedIds t ≠ []) :
    next_id t = (usedIds t).foldl Nat.max 0 + 1 := by
  unfold next_id
  have : (usedIds t).isEmpty = false := by
    cases hu : usedIds t with
    | nil => exact absurd hu h
    | cons x xs => rfl
  simp [this]

theorem next_id_of_nil {t : XTree} (h : usedIds t = []) : next_id t = 1 := by
  unfold next_id
  simp [h]

/-- C4: `next_id` collects the `id` attribute values anywhere in the subtree,
keeps those that are syntactically non-negative integers (ignoring malformed
values), and returns 1 when none remain, otherwise the maximum numeric value
plus 1; in particular for ids {3, 7, "x", 1} it returns 8, and for a subtree
with no `id` attributes it returns 1. -/
theorem next_id_allocator_correct :
    (∀ t : XTree, usedIds t = [] → next_id t = 1) ∧
    (∀ t : XTree, usedIds t ≠ [] →
      ∃ m ∈ usedIds t, (∀ v ∈ usedIds t, v ≤ m) ∧ next_id t = m + 1) ∧
    next_id (.node [] [.node [("id", "3")] [], .node [("id", "7")] [],
      .node [("id", "x")] [], .node [("id", "1")] []]) = 8 ∧
    next_id (.node [("w", "4")] [.node [] [], .node [("rId", "9")] []]) = 1 := by
  refine ⟨fun t h => next_id_of_nil h, fun t h => ?_, by decide, by decide⟩
  exact ⟨(usedIds t).foldl Nat.max 0, foldl_max_zero_mem _ h,
    (le_foldl_max _ 0).2, next_id_of_ne_nil h⟩

/-- Witness for `next_id_allocator_correct` at the subtree with ids
{3, 7, "x", 1}. -/
theorem next_id_allocator_correct_witness :
    usedIds (XTree.node [] [.node [("id", "3")] [], .node [("id", "7")] [],
        .node [("id", "x")] [], .node [("id", "1")] []]) ≠ [] ∧
    ∃ m ∈ usedIds (XTree.node [] [.node [("id", "3")] [], .node [("id", "7")] [],
        .node [("id", "x")] [], .node [("id", "1")] []]),
      (∀ v ∈ usedIds (XTree.node [] [.node [("id", "3")] [], .node [("id", "7")] [],
        .node [("id", "x")] [], .node [("id", "1")] []]), v ≤ m) ∧
      next_id (XTree.node [] [.node [("id", "3")] [], .node [("id", "7")] [],
        .node [("id", "x")] [], .node [("id", "1")] []]) = m + 1 :=
  ⟨by decide, next_id_allocator_correct.2.1 _ (by decide)⟩

/-- C5: the value returned by `next_id` is strictly greater than every
syntactically numeric `id` attribute value in the subtree, so it collides
with none of them. -/
theorem next_id_no_collision (t : XTree) (v : Nat) (hv : v ∈ usedIds t) :
    v < next_id t := by
  rw [next_id_of_ne_nil (usedIds_ne_nil_of_mem hv)]
  exact Nat.lt_succ_of_le ((le_foldl_max (usedIds t) 0).2 v hv)

/-- Witness for `next_id_no_collision`: id 7 in a concrete subtree. -/
theorem next_id_no_collision_witness :
    7 ∈ usedIds (XTree.node [("id", "3")] [.node [("id", "7")] []]) ∧
    7 < next_id (XTree.node [("id", "3")] [.node [("id", "7")] []]) :=
  ⟨by decide, next_id_no_collision _ 7 (by decide)⟩

/-- C10: `next_id` always returns a strictly positive value; the digit test
accepts "0" and digit strings with leading zeros (parsed by numeric value),
and a subtree whose only id is "0" yields `next_id = 1`. -/
theorem next_id_positive :
    (∀ t : XTree, 1 ≤ next_id t) ∧
    isDigitStr "0" = true ∧ isDigitStr "007" = true ∧ strToNat "007" = 7 ∧
    next_id (.node [("id", "0")] []) = 1 := by
  refine ⟨fun t => ?_, by decide, by decide, by decide, by decide⟩
  by_cases h : usedIds t = []
  · rw [next_id_of_nil h]
  · rw [next_id_of_ne_nil h]
    exact Nat.succ_le_succ (Nat.zero_le _)

theorem countRel_eq_zero_iff (s : PState) (t : RT) :
    countRel s t = 0 ↔ s.rels.find? (fun e => e.1 == t) = none := by
  simp [countRel, List.length_eq_zero, List.filter_eq_nil_iff, List.find?_eq_none]

theorem part_related_by_error_iff (s : PState) (t : RT) :
    part_related_by s t = .error .keyError ↔ countRel s t = 0 := by
  rw [countRel_eq_zero_iff]
  unfold part_related_by
  cases h : s.rels.find? (fun e => e.1 == t) <;> simp

theorem part_related_by_total (s : PState) (t : RT) :
    (∃ p, part_related_by s t = .ok p) ∨ part_related_by s t = .error .keyError := by
  unfold part_related_by
  cases h : s.rels.find? (fun e => e.1 == t) with
  | none => exact Or.inr rfl
  | some e => exact Or.inl ⟨e.2, rfl⟩

theorem countRel_after_relate (s : PState) (p : Nat) (t t' : RT) :
    countRel (relate_to s p t) t' = countRel s t' + if t = t' then 1 else 0 := by
  by_cases h : t = t'
  · subst h
    simp [countRel, relate_to, List.filter_append]
  · simp [countRel, relate_to, List.filter_append, h]

/-- C3: resolving the dependent part for each singleton relationship type
never surfaces an error: the `KeyError` from the package lookup is always
caught and a default part is materialized, for every part state, including
states with zero relationships of that type. -/
theorem resolve_never_raises (s : PState) :
    (∃ r, stylesPartAcc s = .ok r) ∧
    (∃ r, settingsPartAcc s = .ok r) ∧
    (∃ r, numberingPartAcc s = .ok r) := by
  refine ⟨?_, ?_, ?_⟩
  · rcases part_related_by_total s .styles with ⟨p, h⟩ | h <;>
      · simp only [stylesPartAcc, h]
        exact ⟨_, rfl⟩
  · rcases part_related_by_total s .settings with ⟨p, h⟩ | h <;>
      · simp only [settingsPartAcc, h]
        exact ⟨_, rfl⟩
  · cases hc : s.numberingCache with
    | some p =>
      simp only [numberingPartAcc, hc]
      exact ⟨_, rfl⟩
    | none =>
      rcases part_related_by_total s .numbering with ⟨p, h⟩ | h <;>
        · simp only [numberingPartAcc, hc, h]
          exact ⟨_, rfl⟩

theorem countRel_set_nextFresh (s : PState) (n : Nat) (t : RT) :
    countRel { s with nextFresh := n } t = countRel s t := rfl

theorem countRel_set_cache (s : PState) (o : Option Nat) (t : RT) :
    countRel { s with numberingCache := o } t = countRel s t := rfl

/-- C7: every dependent-part accessor preserves the singleton invariant, and
adds an edge of its type only in the branch where the lookup for that type
has just failed (otherwise the relationship set is untouched). -/
theorem singleton_invariant_preserved (s : PState) (p : Nat) (s1 : PState) (c : Nat)
    (hInv : SingletonInv s) :
    (stylesPartAcc s = .ok (p, s1, c) →
      SingletonInv s1 ∧
      (s1.rels = s.rels ∨
        (part_related_by s .styles = .error .keyError ∧
          s1.rels = s.rels ++ [(.styles, p)]))) ∧
    (settingsPartAcc s = .ok (p, s1, c) →
      SingletonInv s1 ∧
      (s1.rels = s.rels ∨
        (part_related_by s .settings = .error .keyError ∧
          s1.rels = s.rels ++ [(.settings, p)]))) ∧
    (numberingPartAcc s = .ok (p, s1, c) →
      SingletonInv s1 ∧
      (s1.rels = s.rels ∨
        (part_related_by s .numbering = .error .keyError ∧
          s1.rels = s.rels ++ [(.numbering, p)]))) := by
  obtain ⟨hSt, hNum, hSet⟩ := hInv
  refine ⟨?_, ?_, ?_⟩
  · intro hEq
    rcases part_related_by_total s .styles with ⟨q, h⟩ | h
    · simp only [stylesPartAcc, h, Except.ok.injEq, Prod.mk.injEq] at hEq
      obtain ⟨hp, hs, -⟩ := hEq
      subst hs
      exact ⟨⟨hSt, hNum, hSet⟩, Or.inl rfl⟩
    · have h0 : countRel s .styles = 0 := (part_related_by_error_iff s .styles).mp h
      simp only [stylesPartAcc, h, Except.ok.injEq, Prod.mk.injEq] at hEq
      obtain ⟨hp, hs, -⟩ := hEq
      subst hp
      subst hs
      constructor
      · refine ⟨?_, ?_, ?_⟩ <;>
          simp only [countRel_after_relate, countRel_set_nextFresh] <;>
          simp [h0, hNum, hSet]
      · exact Or.inr ⟨h, rfl⟩
  · intro hEq
    rcases part_related_by_total s .settings with ⟨q, h⟩ | h
    · simp only [settingsPartAcc, h, Except.ok.injEq, Prod.mk.injEq] at hEq
      obtain ⟨hp, hs, -⟩ := hEq
      subst hs
      exact ⟨⟨hSt, hNum, hSet⟩, Or.inl rfl⟩
    · have h0 : countRel s .settings = 0 := (part_related_by_error_iff s .settings).mp h
      simp only [settingsPartAcc, h, Except.ok.injEq, Prod.mk.injEq] at hEq
      obtain ⟨hp, hs, -⟩ := hEq
      subst hp
      subst hs
      constructor
      · refine ⟨?_, ?_, ?_⟩ <;>
          simp only [countRel_after_relate, countRel_set_nextFresh] <;>
          simp [h0, hSt, hNum]
      · exact Or.inr ⟨h, rfl⟩
  · intro hEq
    cases hc : s.numberingCache with
    | some q =>
      simp only [numberingPartAcc, hc, Except.ok.injEq, Prod.mk.injEq] at hEq
      obtain ⟨hp, hs, -⟩ := hEq
      subst hs
      exact ⟨⟨hSt, hNum, hSet⟩, Or.inl rfl⟩
    | none =>
      rcases part_related_by_total s .numbering with ⟨q, h⟩ | h
      · simp only [numberingPartAcc, hc, h, Except.ok.injEq, Prod.mk.injEq] at hEq
        obtain ⟨hp, hs, -⟩ := hEq
        subst hs
        exact ⟨⟨hSt, hNum, hSet⟩, Or.inl rfl⟩
      · have h0 : countRel s .numbering = 0 := (part_related_by_error_iff s .numbering).mp h
        simp only [numberingPartAcc, hc, h, Except.ok.injEq, Prod.mk.injEq] at hEq
        obtain ⟨hp, hs, -⟩ := hEq
        subst hp
        subst hs
        have h0' : countRel ⟨s.rels, none, s.nextFresh + 1, s.tree⟩ RT.numbering = 0 := h0
        have hSt' : countRel ⟨s.rels, none, s.nextFresh + 1, s.tree⟩ RT.styles ≤ 1 := hSt
        have hSet' : countRel ⟨s.rels, none, s.nextFresh + 1, s.tree⟩ RT.settings ≤ 1 := hSet
        constructor
        · refine ⟨?_, ?_, ?_⟩ <;>
            simp only [countRel_set_cache, countRel_after_relate, countRel_set_nextFresh] <;>
            simp [h0', hSt', hSet']
        · exact Or.inr ⟨h, rfl⟩

/-- C1: on a part with no pre-existing relationship of a singleton type,
accessing the corresponding dependent-part accessor twice creates exactly
one relationship of that type — one edge added on the miss, none on the
repeat — and returns the same part both times. -/
theorem accessor_idempotent_default_creation (s : PState) :
    (countRel s .styles = 0 →
      ∃ p s1 s2, stylesPartAcc s = .ok (p, s1, 1) ∧
        stylesPartAcc s1 = .ok (p, s2, 1) ∧
        s1.rels = s.rels ++ [(.styles, p)] ∧ s2 = s1 ∧
        countRel s1 .styles = 1) ∧
    (countRel s .settings = 0 →
      ∃ p s1 s2, settingsPartAcc s = .ok (p, s1, 1) ∧
        settingsPartAcc s1 = .ok (p, s2, 1) ∧
        s1.rels = s.rels ++ [(.settings, p)] ∧ s2 = s1 ∧
        countRel s1 .settings = 1) ∧
    (s.numberingCache = none → countRel s .numbering = 0 →
      ∃ p s1 s2, numberingPartAcc s = .ok (p, s1, 1) ∧
        numberingPartAcc s1 = .ok (p, s2, 0) ∧
        s1.rels = s.rels ++ [(.numbering, p)] ∧ s2 = s1 ∧
        countRel s1 .numbering = 1) := by
  refine ⟨fun h0 => ?_, fun h0 => ?_, fun hc h0 => ?_⟩
  · have hf : s.rels.find? (fun e => e.1 == RT.styles) = none :=
      (countRel_eq_zero_iff s .styles).mp h0
    have h : part_related_by s .styles = .error .keyError :=
      (part_related_by_error_iff s .styles).mpr h0
    refine ⟨s.nextFresh,
      relate_to ⟨s.rels, s.numberingCache, s.nextFresh + 1, s.tree⟩ s.nextFresh .styles,
      _, ?_, ?_, rfl, rfl, ?_⟩
    · simp only [stylesPartAcc, h]
    · have hf2 : (s.rels ++ [(RT.styles, s.nextFresh)]).find? (fun e => e.1 == RT.styles) =
          some (RT.styles, s.nextFresh) := by
        rw [List.find?_append, hf]
        simp [List.find?]
      have h2 : part_related_by
          (relate_to ⟨s.rels, s.numberingCache, s.nextFresh + 1, s.tree⟩ s.nextFresh .styles)
          .styles = .ok s.nextFresh := by
        unfold part_related_by relate_to
        simp only [hf2]
      simp only [stylesPartAcc, h2]
    · rw [countRel_after_relate]
      simp [countRel_set_nextFresh, h0]
  · have hf : s.rels.find? (fun e => e.1 == RT.settings) = none :=
      (countRel_eq_zero_iff s .settings).mp h0
    have h : part_related_by s .settings = .error .keyError :=
      (part_related_by_error_iff s .settings).mpr h0
    refine ⟨s.nextFresh,
      relate_to ⟨s.rels, s.numberingCache, s.nextFresh + 1, s.tree⟩ s.nextFresh .settings,
      _, ?_, ?_, rfl, rfl, ?_⟩
    · simp only [settingsPartAcc, h]
    · have hf2 : (s.rels ++ [(RT.settings, s.nextFresh)]).find? (fun e => e.1 == RT.settings) =
          some (RT.settings, s.nextFresh) := by
        rw [List.find?_append, hf]
        simp [List.find?]
      have h2 : part_related_by
          (relate_to ⟨s.rels, s.numberingCache, s.nextFresh + 1, s.tree⟩ s.nextFresh .settings)
          .settings = .ok s.nextFresh := by
        unfold part_related_by relate_to
        simp only [hf2]
      simp only [settingsPartAcc, h2]
    · rw [countRel_after_relate]
      simp [countRel_set_nextFresh, h0]
  · have h : part_related_by s .numbering = .error .keyError :=
      (part_related_by_error_iff s .numbering).mpr h0
    refine ⟨s.nextFresh,
      ⟨s.rels ++ [(RT.numbering, s.nextFresh)], some s.nextFresh, s.nextFresh + 1, s.tree⟩,
      _, ?_, ?_, rfl, rfl, ?_⟩
    · simp only [numberingPartAcc, hc, h]
      rfl
    · simp only [numberingPartAcc]
    · have h1 : countRel
          (⟨s.rels ++ [(RT.numbering, s.nextFresh)], some s.nextFresh, s.nextFresh + 1,
            s.tree⟩ : PState) .numbering =
          countRel (relate_to ⟨s.rels, s.numberingCache, s.nextFresh + 1, s.tree⟩
            s.nextFresh .numbering) .numbering := rfl
      rw [h1, countRel_after_relate]
      simp [countRel_set_nextFresh, h0]

theorem part_related_by_after_relate_self (s : PState) (p : Nat) (t : RT)
    (h : s.rels.find? (fun e => e.1 == t) = none) :
    part_related_by (relate_to s p t) t = .ok p := by
  unfold part_related_by relate_to
  simp only [List.find?_append, h]
  simp [List.find?]

/-- Witness for `accessor_idempotent_default_creation` on a fresh part. -/
theorem accessor_idempotent_default_creation_witness :
    countRel freshState .styles = 0 ∧
    ∃ p s1 s2, stylesPartAcc freshState = .ok (p, s1, 1) ∧
      stylesPartAcc s1 = .ok (p, s2, 1) ∧
      s1.rels = freshState.rels ++ [(.styles, p)] ∧ s2 = s1 ∧
      countRel s1 .styles = 1 :=
  ⟨rfl, (accessor_idempotent_default_creation freshState).1 rfl⟩

/-- C2 counterexample: on the state reached after one `_styles_part` access,
a repeat access still invokes `part_related_by` (one lookup, not zero):
`_styles_part` is a plain property, not a memoized one. -/
theorem accessor_memoization_counterexample :
    stylesPartAcc freshState = .ok (0, afterStyles, 1) ∧
    stylesPartAcc afterStyles = .ok (0, afterStyles, 1) ∧
    ¬ stylesPartAcc afterStyles = .ok (0, afterStyles, 0) := by
  refine ⟨rfl, rfl, fun hcl => ?_⟩
  have h1 : (Except.ok (0, afterStyles, 1) : Except DocxError (Nat × PState × Nat)) =
      .ok (0, afterStyles, 0) := hcl
  injection h1 with h2
  injection h2 with ha hb
  injection hb with hc hd
  exact one_ne_zero hd

/-- C2 (amended): only the numbering accessor is memoized — its repeat
access performs no relationship lookup and returns the cached part — while
the styles and settings accessors invoke `part_related_by` once on every
access; after a first access the relationship exists, so a repeat access
returns the same part and leaves the state unchanged. -/
theorem accessor_repeat_access_behavior (s : PState) (p : Nat) (s1 : PState) (c : Nat) :
    (numberingPartAcc s = .ok (p, s1, c) → numberingPartAcc s1 = .ok (p, s1, 0)) ∧
    (stylesPartAcc s = .ok (p, s1, c) → stylesPartAcc s1 = .ok (p, s1, 1)) ∧
    (settingsPartAcc s = .ok (p, s1, c) → settingsPartAcc s1 = .ok (p, s1, 1)) := by
  refine ⟨fun hEq => ?_, fun hEq => ?_, fun hEq => ?_⟩
  · cases hc2 : s.numberingCache with
    | some q =>
      simp only [numberingPartAcc, hc2, Except.ok.injEq, Prod.mk.injEq] at hEq
      obtain ⟨hp, hs, -⟩ := hEq
      subst hp
      subst hs
      simp only [numberingPartAcc, hc2]
    | none =>
      rcases part_related_by_total s .numbering with ⟨q, h⟩ | h
      · simp only [numberingPartAcc, hc2, h, Except.ok.injEq, Prod.mk.injEq] at hEq
        obtain ⟨hp, hs, -⟩ := hEq
        subst hp
        subst hs
        simp only [numberingPartAcc]
      · simp only [numberingPartAcc, hc2, h, Except.ok.injEq, Prod.mk.injEq] at hEq
        obtain ⟨hp, hs, -⟩ := hEq
        subst hp
        subst hs
        simp only [numberingPartAcc]
  · rcases part_related_by_total s .styles with ⟨q, h⟩ | h
    · simp only [stylesPartAcc, h, Except.ok.injEq, Prod.mk.injEq] at hEq
      obtain ⟨hp, hs, -⟩ := hEq
      subst hp
      subst hs
      simp only [stylesPartAcc, h]
    · have hf : s.rels.find? (fun e => e.1 == RT.styles) = none :=
        (countRel_eq_zero_iff s .styles).mp ((part_related_by_error_iff s .styles).mp h)
      simp only [stylesPartAcc, h, Except.ok.injEq, Prod.mk.injEq] at hEq
      obtain ⟨hp, hs, -⟩ := hEq
      subst hp
      subst hs
      have h2 := part_related_by_after_relate_self
        ⟨s.rels, s.numberingCache, s.nextFresh + 1, s.tree⟩ s.nextFresh .styles hf
      simp only [stylesPartAcc, h2]
  · rcases part_related_by_total s .settings with ⟨q, h⟩ | h
    · simp only [settingsPartAcc, h, Except.ok.injEq, Prod.mk.injEq] at hEq
      obtain ⟨hp, hs, -⟩ := hEq
      subst hp
      subst hs
      simp only [settingsPartAcc, h]
    · have hf : s.rels.find? (fun e => e.1 == RT.settings) = none :=
        (countRel_eq_zero_iff s .settings).mp ((part_related_by_error_iff s .settings).mp h)
      simp only [settingsPartAcc, h, Except.ok.injEq, Prod.mk.injEq] at hEq
      obtain ⟨hp, hs, -⟩ := hEq
      subst hp
      subst hs
      have h2 := part_related_by_after_relate_self
        ⟨s.rels, s.numberingCache, s.nextFresh + 1, s.tree⟩ s.nextFresh .settings hf
      simp only [settingsPartAcc, h2]

/-- Witness for `accessor_repeat_access_behavior` on a fresh part. -/
theorem accessor_repeat_access_behavior_witness :
    numberingPartAcc afterNumbering = .ok (0, afterNumbering, 0) ∧
    stylesPartAcc afterStyles = .ok (0, afterStyles, 1) ∧
    settingsPartAcc afterSettings = .ok (0, afterSettings, 1) :=
  ⟨(accessor_repeat_access_behavior freshState 0 afterNumbering 1).1 rfl,
   (accessor_repeat_access_behavior freshState 0 afterStyles 1).2.1 rfl,
   (accessor_repeat_access_behavior freshState 0 afterSettings 1).2.2 rfl⟩

/-- Witness for `singleton_invariant_preserved` on a fresh part. -/
theorem singleton_invariant_preserved_witness :
    SingletonInv freshState ∧
    (SingletonInv afterStyles ∧
      (afterStyles.rels = freshState.rels ∨
        (part_related_by freshState .styles = .error .keyError ∧
          afterStyles.rels = freshState.rels ++ [(.styles, 0)]))) :=
  ⟨by decide, (singleton_invariant_preserved freshState 0 afterStyles 1 (by decide)).1 rfl⟩

/-- Claim C6: `next_id` is a pure read-and-compute facade access: it leaves
the part's relationship set, numbering cache and XML subtree unchanged, keeps
no state of its own, and its value is recomputed from the current subtree on
every access (a mutated subtree is reflected immediately). -/
theorem next_id_pure_access (s : PState) :
    nextIdAcc s = (next_id s.tree, s) ∧
    (nextIdAcc s).2.rels = s.rels ∧
    (nextIdAcc s).2.numberingCache = s.numberingCache ∧
    (nextIdAcc s).2.tree = s.tree ∧
    (∀ t2 : XTree, (nextIdAcc { s with tree := t2 }).1 = next_id t2) :=
  ⟨rfl, rfl, rfl, rfl, fun _ => rfl⟩

/-- Claim C9: `get_style` never fails — it returns the style matching
`style_id` and `style_type` when one is defined, and otherwise (absent id,
or no defined style of that type with that id) the designated default style
for `style_type`. -/
theorem get_style_total_fallback (d : StylesDoc) :
    (∀ ty, FooterPart.get_style d none ty = d.dflt ty) ∧
    (∀ i ty,
      d.styles.find? (fun st => decide (st.styleId = i) && decide (st.type = ty)) = none →
      FooterPart.get_style d (some i) ty = d.dflt ty) ∧
    (∀ i ty st,
      d.styles.find? (fun st => decide (st.styleId = i) && decide (st.type = ty)) = some st →
      FooterPart.get_style d (some i) ty = st ∧ st.styleId = i ∧ st.type = ty) := by
  refine ⟨fun ty => rfl, fun i ty h => ?_, fun i ty st h => ?_⟩
  · simp only [FooterPart.get_style, Styles.get_by_id, h]
  · have hp := List.find?_some h
    simp only [Bool.and_eq_true, decide_eq_true_eq] at hp
    exact ⟨by simp only [FooterPart.get_style, Styles.get_by_id, h], hp.1, hp.2⟩

/-- Witness for `get_style_total_fallback`: an absent id and a bogus id both
yield the default paragraph style; a defined id is returned itself. -/
theorem get_style_total_fallback_witness :
    FooterPart.get_style demoDoc (some "bogus-id") .paragraph = demoDoc.dflt .paragraph ∧
    (FooterPart.get_style demoDoc (some "Heading1") .paragraph = demoHeading ∧
      demoHeading.styleId = "Heading1" ∧ demoHeading.type = .paragraph) :=
  ⟨(get_style_total_fallback demoDoc).2.1 "bogus-id" .paragraph (by decide),
   (get_style_total_fallback demoDoc).2.2 "Heading1" .paragraph demoHeading (by decide)⟩

/-- Claim C8: `get_style_id` returns an absent value when the input is
absent or the resolved style is the default for the type; raises
`WrongStyleType` when the input names a style of a different type; raises
`StyleNotFound` when no style matches; otherwise returns the canonical id. -/
theorem get_style_id_policy (d : StylesDoc) :
    (∀ ty, FooterPart.get_style_id d none ty = .ok none) ∧
    (∀ key ty,
      d.styles.find? (fun st => decide (st.styleId = key) || decide (st.name = key)) = none →
      FooterPart.get_style_id d (some key) ty = .error (.styleNotFound key)) ∧
    (∀ key ty st,
      d.styles.find? (fun st => decide (st.styleId = key) || decide (st.name = key)) = some st →
      st.type ≠ ty →
      FooterPart.get_style_id d (some key) ty = .error (.wrongStyleType key)) ∧
    (∀ key ty st,
      d.styles.find? (fun st => decide (st.styleId = key) || decide (st.name = key)) = some st →
      st.type = ty → st = d.dflt ty →
      FooterPart.get_style_id d (some key) ty = .ok none) ∧
    (∀ key ty st,
      d.styles.find? (fun st => decide (st.styleId = key) || decide (st.name = key)) = some st →
      st.type = ty → st ≠ d.dflt ty →
      FooterPart.get_style_id d (some key) ty = .ok (some st.styleId)) := by
  refine ⟨fun ty => rfl, fun key ty h => ?_, fun key ty st h hty => ?_,
    fun key ty st h hty hd => ?_, fun key ty st h hty hd => ?_⟩
  · simp only [FooterPart.get_style_id, Styles.get_style_id, h]
  · simp only [FooterPart.get_style_id, Styles.get_style_id, h, if_neg hty]
  · simp only [FooterPart.get_style_id, Styles.get_style_id, h, if_pos hty, if_pos hd]
  · simp only [FooterPart.get_style_id, Styles.get_style_id, h, if_pos hty, if_neg hd]

/-- Witness for `get_style_id_policy`, mirroring the spec's test cases:
"Heading 1" requested as a character style raises `WrongStyleType`,
"NoSuchStyle" raises `StyleNotFound`, an absent input yields an absent
value, "Normal" (the paragraph default) yields an absent value, and
"Heading 1" as a paragraph style yields its canonical id. -/
theorem get_style_id_policy_witness :
    FooterPart.get_style_id demoDoc none .paragraph = .ok none ∧
    FooterPart.get_style_id demoDoc (some "NoSuchStyle") .paragraph =
      .error (.styleNotFound "NoSuchStyle") ∧
    FooterPart.get_style_id demoDoc (some "Heading 1") .character =
      .error (.wrongStyleType "Heading 1") ∧
    FooterPart.get_style_id demoDoc (some "Normal") .paragraph = .ok none ∧
    FooterPart.get_style_id demoDoc (some "Heading 1") .paragraph = .ok (some "Heading1") :=
  ⟨(get_style_id_policy demoDoc).1 .paragraph,
   (get_style_id_policy demoDoc).2.1 "NoSuchStyle" .paragraph (by decide),
   (get_style_id_policy demoDoc).2.2.1 "Heading 1" .character demoHeading (by decide) (by decide),
   (get_style_id_policy demoDoc).2.2.2.1 "Normal" .paragraph demoNormal (by decide) rfl (by decide),
   (get_style_id_policy demoDoc).2.2.2.2 "Heading 1" .paragraph demoHeading (by decide) rfl
     (by decide)⟩
